import Mathlib

/-! Verification of the split-payment checkout core.

Shallow embedding, in Lean 4, of the payment-orchestration core of the
split-payment checkout service:

* `src/server/utils/currency.js` — `distributeProportionally` (proportional
  split with rounding repair);
* `src/server/utils/validation.js` — `validateAmount`, `validatePaymentAmounts`;
* `src/server/services/paymentService.js` — `completeCheckout` (fan-out
  authorize / compensate / capture) and `processRefund` (proportional refund);
* `src/server/routes/admin.js` (webhook part) — the Stripe webhook handlers
  `handlePaymentIntentSucceeded` and `handlePaymentIntentFailed`;
* the widget routes — `POST /create-payment-intent` guards and the in-process
  `widgetSessions` map.

Monetary values are embedded as `Int` (JavaScript numbers are used as integer
cents throughout the source).  JavaScript's `Math.round` on the exact rational
`a / b` (with `b > 0`) is `⌊a/b + 1/2⌋`, i.e. half-way cases round toward
positive infinity; it is embedded as exact rational rounding `jsRound`.
Provider (Stripe) network calls are embedded as explicit oracles passed to the
orchestration functions, and database writes as explicit state passing.
-/

namespace SplitPay

/-! ## Money & proration (`src/server/utils/currency.js`) -/

/-- JavaScript `Math.round (num / den)` for integers `num`, `den` with
`den > 0`, computed exactly: `⌊num/den + 1/2⌋ = ⌊(2·num + den) / (2·den)⌋`.
Half-way cases round toward positive infinity, as in JS. -/
def jsRound (num den : Int) : Int :=
  (2 * num + den).fdiv (2 * den)

/-- The intermediate `distributed` array of `distributeProportionally`:
`portions.map(portion => Math.round(totalAmount * (portion / totalPortions)))`
with `totalPortions = portions.sum`. -/
def rawShares (totalAmount : Int) (portions : List Int) : List Int :=
  portions.map (fun portion => jsRound (totalAmount * portion) portions.sum)

/-- The `largestIndex` computation of `distributeProportionally`:
`distributed.reduce((maxIdx, val, idx, arr) => val > arr[maxIdx] ? idx : maxIdx, 0)`
— the index of the first strict maximum of the list. -/
def largestIdx (l : List Int) : Nat :=
  (List.range l.length).foldl
    (fun maxIdx idx => if l.getD idx 0 > l.getD maxIdx 0 then idx else maxIdx) 0

/-- `distributeProportionally(totalAmount, portions)` from
`src/server/utils/currency.js` lines 80–106: proportional rounding of each
portion, then the rounding difference `totalAmount - Σ distributed` is added
to the entry holding the largest distributed value. -/
def distributeProportionally (totalAmount : Int) (portions : List Int) : List Int :=
  if portions.sum = 0 then
    portions.map (fun _ => 0)
  else
    let distributed := rawShares totalAmount portions
    let difference := totalAmount - distributed.sum
    if difference = 0 then
      distributed
    else
      distributed.set (largestIdx distributed)
        (distributed.getD (largestIdx distributed) 0 + difference)

example : distributeProportionally 3000 [8000, 4000] = [2000, 1000] := by decide
example : distributeProportionally 10 [1, 1, 1] = [4, 3, 3] := by decide
example : distributeProportionally 4 [3, 1, 1, 1, 1, 1] = [-1, 1, 1, 1, 1, 1] := by
  decide

/-! ### Helper lemmas about `distributeProportionally` -/

private theorem foldl_range_lt {n : Nat} (f : Nat → Nat → Nat)
    (hf : ∀ a b, a < n → b < n → f a b < n) :
    ∀ (xs : List Nat) (acc : Nat), acc < n → (∀ x ∈ xs, x < n) →
      xs.foldl f acc < n := by
  intro xs
  induction xs with
  | nil => intro acc hacc _; simpa using hacc
  | cons x tl ih =>
      intro acc hacc hmem
      simp only [List.foldl_cons]
      exact ih (f acc x) (hf acc x hacc (hmem x (by simp)))
        (fun y hy => hmem y (by simp [hy]))

theorem largestIdx_lt (l : List Int) (h : l ≠ []) : largestIdx l < l.length := by
  unfold largestIdx
  apply foldl_range_lt
  · intro a b ha hb
    dsimp only
    split <;> assumption
  · exact List.length_pos.mpr h
  · intro x hx
    exact List.mem_range.mp hx

theorem sum_set_getD (l : List Int) (i : Nat) (d : Int) (h : i < l.length) :
    (l.set i (l.getD i 0 + d)).sum = l.sum + d := by
  induction l generalizing i with
  | nil => simp at h
  | cons a tl ih =>
      cases i with
      | zero => simp [List.getD]; ring
      | succ j =>
          have hj : j < tl.length := by simpa using h
          simp only [List.set, List.sum_cons, List.getD_cons_succ]
          rw [ih j hj]
          ring

theorem rawShares_length (t : Int) (ps : List Int) :
    (rawShares t ps).length = ps.length := by
  simp [rawShares]

theorem distributeProportionally_length (t : Int) (ps : List Int) :
    (distributeProportionally t ps).length = ps.length := by
  unfold distributeProportionally
  split
  · simp
  · dsimp only
    split
    · exact rawShares_length t ps
    · rw [List.length_set, rawShares_length]

theorem distributeProportionally_sum (t : Int) (ps : List Int)
    (hne : ps ≠ []) (hsum : ps.sum ≠ 0) :
    (distributeProportionally t ps).sum = t := by
  unfold distributeProportionally
  rw [if_neg hsum]
  dsimp only
  split
  · omega
  · rw [sum_set_getD]
    · omega
    · rw [rawShares_length]
      have : rawShares t ps ≠ [] := by
        intro hcon
        have := rawShares_length t ps
        rw [hcon] at this
        exact hne (List.eq_nil_of_length_eq_zero this.symm)
      have := largestIdx_lt (rawShares t ps) this
      rwa [rawShares_length] at this

theorem jsRound_nonneg (num den : Int) (hn : 0 ≤ num) (hd : 0 < den) :
    0 ≤ jsRound num den := by
  unfold jsRound
  exact Int.fdiv_nonneg (by omega) (by omega)

theorem getD_set_ne (l : List Int) (i j : Nat) (a : Int) (h : i ≠ j) :
    (l.set i a).getD j 0 = l.getD j 0 := by
  induction l generalizing i j with
  | nil => simp
  | cons b tl ih =>
      cases i with
      | zero =>
          cases j with
          | zero => exact absurd rfl h
          | succ k => simp
      | succ m =>
          cases j with
          | zero => simp
          | succ k =>
              simp only [List.set, List.getD_cons_succ]
              exact ih m k (fun hc => h (by rw [hc]))

theorem getD_map_lt (f : Int → Int) (l : List Int) (i : Nat) (h : i < l.length) :
    (l.map f).getD i 0 = f (l.getD i 0) := by
  induction l generalizing i with
  | nil => simp at h
  | cons a tl ih =>
      cases i with
      | zero => simp
      | succ j =>
          have hj : j < tl.length := by simpa using h
          simp only [List.map_cons, List.getD_cons_succ]
          exact ih j hj

theorem getD_mem (l : List Int) (i : Nat) (h : i < l.length) : l.getD i 0 ∈ l := by
  induction l generalizing i with
  | nil => simp at h
  | cons a tl ih =>
      cases i with
      | zero => simp
      | succ j =>
          have hj : j < tl.length := by simpa using h
          simp only [List.getD_cons_succ]
          exact List.mem_cons_of_mem a (ih j hj)

theorem rawShares_getD (t : Int) (ps : List Int) (i : Nat) (h : i < ps.length) :
    (rawShares t ps).getD i 0 = jsRound (t * ps.getD i 0) ps.sum := by
  unfold rawShares
  exact getD_map_lt _ ps i h

/-- The entries of `distributeProportionally` away from the rounding-repair
index are the raw rounded shares, hence non-negative for non-negative data. -/
theorem distribute_getD_nonneg_off_repair (t : Int) (ps : List Int) (i : Nat)
    (ht : 0 ≤ t) (hw : ∀ p ∈ ps, 0 ≤ p) (hs : 0 < ps.sum)
    (hi : i < ps.length) (hrep : i ≠ largestIdx (rawShares t ps)) :
    0 ≤ (distributeProportionally t ps).getD i 0 := by
  have hraw : 0 ≤ (rawShares t ps).getD i 0 := by
    rw [rawShares_getD t ps i hi]
    exact jsRound_nonneg _ _
      (mul_nonneg ht (hw _ (getD_mem ps i hi))) hs
  unfold distributeProportionally
  rw [if_neg (by omega)]
  dsimp only
  split
  · exact hraw
  · rw [getD_set_ne _ _ _ _ (fun hc => hrep hc.symm)]
    exact hraw

/-! ## Claims C3 and C4 -/

/-- Claim C3. For every `total ≥ 0` and every non-empty vector of non-negative
integer weights whose sum is positive, `distributeProportionally total weights`
returns a vector of the same length as `weights` whose elements sum exactly
to `total`. -/
theorem C3_distribute_length_and_sum (total : Int) (weights : List Int)
    (ht : 0 ≤ total) (hne : weights ≠ []) (hw : ∀ p ∈ weights, 0 ≤ p)
    (hs : 0 < weights.sum) :
    (distributeProportionally total weights).length = weights.length ∧
      (distributeProportionally total weights).sum = total :=
  ⟨distributeProportionally_length total weights,
    distributeProportionally_sum total weights hne hs.ne'⟩

/-- Witness for C3 at `total = 3000`, `weights = [8000, 4000]` (scenario S3). -/
theorem C3_witness :
    (distributeProportionally 3000 [8000, 4000]).length = [(8000:Int), 4000].length ∧
      (distributeProportionally 3000 [8000, 4000]).sum = 3000 :=
  C3_distribute_length_and_sum 3000 [8000, 4000] (by decide) (by decide)
    (by decide) (by decide)

/-- Claim C4, counterexample. At `total = 4`, `weights = [3, 1, 1, 1, 1, 1]`
(all claim hypotheses hold) the output is `[-1, 1, 1, 1, 1, 1]`: the raw
rounded shares are `[2, 1, 1, 1, 1, 1]` (half-up rounding of `1.5` and `0.5`),
their sum overshoots by 3, and the repair drives the largest entry to `-1`.
So not every output element is `≥ 0`. -/
theorem C4_counterexample :
    (0:Int) ≤ 4 ∧ ([(3:Int), 1, 1, 1, 1, 1] ≠ []) ∧
      (∀ p ∈ [(3:Int), 1, 1, 1, 1, 1], 0 ≤ p) ∧
      0 < ([(3:Int), 1, 1, 1, 1, 1]).sum ∧
      distributeProportionally 4 [3, 1, 1, 1, 1, 1] = [-1, 1, 1, 1, 1, 1] ∧
      ¬ (∀ a ∈ distributeProportionally 4 [3, 1, 1, 1, 1, 1], 0 ≤ a) := by
  decide

/-- Claim C4, amended. For every `total ≥ 0` and every non-empty vector of
non-negative integer weights with positive sum, every element of
`distributeProportionally total weights` at an index other than the
rounding-repair index (the first index of the largest raw rounded share) is
`≥ 0`; the repaired element itself may be negative. -/
theorem C4_distribute_nonneg_except_repair_index (total : Int)
    (weights : List Int) (i : Nat) (ht : 0 ≤ total)
    (hw : ∀ p ∈ weights, 0 ≤ p) (hs : 0 < weights.sum)
    (hi : i < weights.length) (hrep : i ≠ largestIdx (rawShares total weights)) :
    0 ≤ (distributeProportionally total weights).getD i 0 :=
  distribute_getD_nonneg_off_repair total weights i ht hw hs hi hrep

/-- Witness for the amended C4 at `total = 4`, `weights = [3,1,1,1,1,1]`,
index `1` (the repair index is `0`). -/
theorem C4_witness :
    0 ≤ (distributeProportionally 4 [3, 1, 1, 1, 1, 1]).getD 1 0 :=
  C4_distribute_nonneg_except_repair_index 4 [3, 1, 1, 1, 1, 1] 1 (by decide)
    (by decide) (by decide) (by decide) (by decide)

/-! ## Data model (§3 of the design; `src/server/db/queries/*`) -/

/-- Payment status domain (`payments.status`). -/
inductive PStatus
  | pending
  | authorized
  | captured
  | voided
  | failed
  | refunded
deriving DecidableEq, Repr

/-- Transaction status domain (`transactions.status`). -/
inductive TStatus
  | pending
  | processing
  | completed
  | failed
  | partially_refunded
  | refunded
deriving DecidableEq, Repr

/-- A row of the `payments` table (the columns the orchestration reads or
writes). -/
structure PaymentRow where
  id : Nat
  intentId : String
  amount : Int
  status : PStatus
  failureCode : Option String := none
  failureMessage : Option String := none
deriving DecidableEq, Repr

/-- The relevant columns of a `transactions` row. -/
structure TxRow where
  totalAmount : Int
  status : TStatus
  failureReason : Option String := none
deriving DecidableEq, Repr

/-- `updatePaymentStatus` applied to a single row: sets the status, and the
failure columns only when provided (`if (failureCode) { … if (failureMessage)`
in `src/server/db/queries/payments.js`). -/
def applyStatusUpdate (r : PaymentRow) (s : PStatus)
    (code msg : Option String) : PaymentRow :=
  { r with
    status := s
    failureCode := match code with | some c => some c | none => r.failureCode
    failureMessage :=
      match code, msg with
      | some _, some m => some m
      | _, _ => r.failureMessage }

/-- `paymentQueries.updatePaymentStatus(paymentId, status, code, message)`:
updates every row whose `id` matches (ids are unique in the real DB). -/
def updatePaymentStatus (ps : List PaymentRow) (pid : Nat) (s : PStatus)
    (code msg : Option String) : List PaymentRow :=
  ps.map fun r => if r.id = pid then applyStatusUpdate r s code msg else r

/-- `paymentQueries.getPaymentByPaymentIntentId`: first row whose
`stripe_payment_intent_id` matches. -/
def getPaymentByIntent (ps : List PaymentRow) (intentId : String) :
    Option PaymentRow :=
  ps.find? fun r => r.intentId = intentId

/-- `transactionQueries.updateTransactionStatus`: sets the status and, only
when a failure reason is provided, the `failure_reason` column. -/
def setTxStatus (tx : Option TxRow) (s : TStatus) (reason : Option String) :
    Option TxRow :=
  tx.map fun t =>
    { t with
      status := s
      failureReason := match reason with | some r => some r | none => t.failureReason }

/-! ## Validation (`src/server/utils/validation.js`) -/

/-- `validateAmount(amount, minAmount)` restricted to its decision: the
number/integer checks are vacuous for `Int`, then `amount < minAmount` and
`amount <= 0` reject. -/
def validateAmountValid (amount minAmount : Int) : Bool :=
  if amount < minAmount then false
  else if amount ≤ 0 then false
  else true

/-- `validatePaymentAmounts(totalAmount, paymentAmounts)` as its boolean
decision: non-empty, 2–5 entries, each entry valid at the default minimum of
100, and the sum equal to the total. -/
def validatePaymentAmountsValid (totalAmount : Int) (paymentAmounts : List Int) : Bool :=
  if paymentAmounts.isEmpty then false
  else if paymentAmounts.length < 2 then false
  else if paymentAmounts.length > 5 then false
  else if paymentAmounts.any (fun a => !validateAmountValid a 100) then false
  else if paymentAmounts.sum ≠ totalAmount then false
  else true

/-! ## `completeCheckout` (`src/server/services/paymentService.js` 161–359)

Provider network calls are oracles: `auth` gives the settled outcome of the
retrieve-then-confirm task for one intent in the `Promise.allSettled` fan-out,
`capture` the outcome of `capturePaymentIntent`.  Cancellation
(`cancelPaymentIntents`) is idempotent and modelled as always succeeding; the
intents for which a provider cancel was issued are recorded in
`cancelCalls`. -/

/-- Settled outcome of one authorize task of the fan-out. -/
inductive AuthR
  | alreadyAuthorized
  | confirmedOk
  | confirmFail (code : Option String) (msg : String)
deriving DecidableEq, Repr

/-- One entry of the `payments` argument of `completeCheckout`
(`{ paymentIntentId, paymentMethodId, amount }` plus the db `paymentId`). -/
structure PayReq where
  paymentId : Nat
  intentId : String
  methodId : String
  amount : Int
deriving DecidableEq, Repr

/-- The state `completeCheckout` reads and writes: the transaction row, the
payments table, and a record of the provider calls issued. -/
structure CheckoutState where
  transaction : Option TxRow
  payments : List PaymentRow
  confirmCalls : List String := []
  captureCalls : List String := []
  cancelCalls : List String := []
deriving DecidableEq, Repr

/-- Mark `voided` each payment located by intent id (paymentService.js
257–262: `getPaymentByPaymentIntentId` then `updatePaymentStatus(id, voided)`
for each cancelled intent). -/
def voidByIntents (ps : List PaymentRow) (intents : List String) : List PaymentRow :=
  intents.foldl
    (fun ps i =>
      match getPaymentByIntent ps i with
      | some r => updatePaymentStatus ps r.id .voided none none
      | none => ps)
    ps

/-- The sequential result-check loop of `completeCheckout` (lines 221–274):
walks the settled authorization results in submission order; on the first
rejected result it marks that payment `failed`, cancels and voids the intents
accumulated **so far**, marks the transaction `failed`, and throws — the
results after the failing index are never examined. -/
def authCheckLoop :
    CheckoutState → List (PayReq × AuthR) → List String →
      CheckoutState × List String × Option String
  | st, [], acc => (st, acc, none)
  | st, (p, r) :: rest, acc =>
    match r with
    | .alreadyAuthorized | .confirmedOk =>
        let st := { st with
          payments := updatePaymentStatus st.payments p.paymentId .authorized none none }
        authCheckLoop st rest (acc ++ [p.intentId])
    | .confirmFail code msg =>
        let st := { st with
          payments := updatePaymentStatus st.payments p.paymentId .failed code (some msg) }
        let st := { st with cancelCalls := st.cancelCalls ++ acc }
        let st := { st with payments := voidByIntents st.payments acc }
        let st := { st with
          transaction := setTxStatus st.transaction .failed (some ("Payment failed: " ++ msg)) }
        (st, acc, some ("Card payment failed: " ++ msg))

/-- The capture phase (lines 276–328): fan out `capturePaymentIntent` over the
authorized intents, mark fulfilled ones `captured`; if any capture failed,
best-effort cancel the failed ones and mark the transaction `failed`, then
throw. Returns the thrown message, if any. -/
def capturePhase (st : CheckoutState) (authorized : List String)
    (capture : String → Bool) : CheckoutState × Option String :=
  let st := { st with captureCalls := st.captureCalls ++ authorized }
  let capResults := authorized.map fun i => (i, capture i)
  let st := capResults.foldl
    (fun st pr =>
      if pr.2 then
        match getPaymentByIntent st.payments pr.1 with
        | some r =>
            { st with payments := updatePaymentStatus st.payments r.id .captured none none }
        | none => st
      else st)
    st
  let failedCaptures := (capResults.filter fun pr => !pr.2).map (·.1)
  if failedCaptures.isEmpty then
    ({ st with transaction := setTxStatus st.transaction .completed none }, none)
  else
    let st := { st with cancelCalls := st.cancelCalls ++ failedCaptures }
    let st := { st with
      transaction := setTxStatus st.transaction .failed (some "Capture failed after authorization") }
    (st, some "Payment capture failed - transaction voided")

/-- The `catch` block of `completeCheckout` (343–357): marks the transaction
`failed` with the thrown message. -/
def applyCheckoutCatch (st : CheckoutState) (errMsg : String) : CheckoutState :=
  { st with transaction := setTxStatus st.transaction .failed (some errMsg) }

/-- `completeCheckout({transactionId, payments, totalAmount})`:
1. validate the amounts (before any state change; the exact error text of
   `validatePaymentAmounts` is abstracted to one message);
2. look up the transaction — note **no check of its current status**;
3. set the transaction `processing`;
4. `Promise.allSettled` authorize fan-out — every not-yet-authorized intent
   receives a provider confirm call;
5. sequential result check (`authCheckLoop`), then capture phase;
   thrown errors pass through the catch block. -/
def completeCheckout (st : CheckoutState) (payments : List PayReq)
    (totalAmount : Int) (auth : String → AuthR) (capture : String → Bool) :
    CheckoutState × Except String Unit :=
  if !validatePaymentAmountsValid totalAmount (payments.map (·.amount)) then
    (st, .error "Invalid payment amounts")
  else
    match st.transaction with
    | none => (st, .error "Transaction not found")
    | some _ =>
      let st := { st with transaction := setTxStatus st.transaction .processing none }
      let st := { st with confirmCalls := st.confirmCalls ++
          ((payments.filter fun p => auth p.intentId ≠ .alreadyAuthorized).map (·.intentId)) }
      match authCheckLoop st (payments.map fun p => (p, auth p.intentId)) [] with
      | (st1, _, some errMsg) => (applyCheckoutCatch st1 errMsg, .error errMsg)
      | (st1, authorized, none) =>
          match capturePhase st1 authorized capture with
          | (st2, none) => (st2, .ok ())
          | (st2, some errMsg) => (applyCheckoutCatch st2 errMsg, .error errMsg)

/-- Status of the payment row with a given id. -/
def paymentStatusById (ps : List PaymentRow) (pid : Nat) : Option PStatus :=
  (ps.find? fun r => r.id = pid).map (·.status)

/-! ## Scenario S2: three-way split, card 2 declines -/

/-- Payments table before `complete()`: three pending cards of 4000 cents. -/
def s2Payments : List PaymentRow :=
  [{ id := 1, intentId := "pi_1", amount := 4000, status := .pending },
   { id := 2, intentId := "pi_2", amount := 4000, status := .pending },
   { id := 3, intentId := "pi_3", amount := 4000, status := .pending }]

/-- The submitted payment list of the `complete()` call. -/
def s2Reqs : List PayReq :=
  [{ paymentId := 1, intentId := "pi_1", methodId := "pm_1", amount := 4000 },
   { paymentId := 2, intentId := "pi_2", methodId := "pm_2", amount := 4000 },
   { paymentId := 3, intentId := "pi_3", methodId := "pm_3", amount := 4000 }]

/-- Provider authorize outcomes: cards 1 and 3 confirm, card 2 declines. -/
def s2Auth : String → AuthR := fun i =>
  if i = "pi_2" then .confirmFail (some "card_declined") "Your card was declined."
  else .confirmedOk

/-- Initial state: pending transaction of 12000 cents, three pending payments. -/
def s2State : CheckoutState :=
  { transaction := some { totalAmount := 12000, status := .pending },
    payments := s2Payments }

/-- The `complete()` run of scenario S2 (captures would all succeed). -/
def s2Run : CheckoutState × Except String Unit :=
  completeCheckout s2State s2Reqs 12000 s2Auth (fun _ => true)

/-! ## Claim C1 -/

/-- Claim C1 (code bug). In the three-card scenario where only card 2 declines,
the code cancels and voids only the payments examined **before** the failing
index: card 1 ends `voided`, card 2 `failed`, but card 3 — whose
authorization succeeded — keeps status `pending`, and no provider cancel is
ever issued for `pi_3` (its authorization hold is leaked).  The transaction is
set to `failed`.  This contradicts the function's own header comment
("If any fails, voids all successful ones") and §4.6 step 3 / scenario S2 of
the spec, which require cards 1 **and 3** to end `voided`. -/
theorem C1_compensation_skips_later_payments :
    s2Run.2 = .error "Card payment failed: Your card was declined." ∧
    s2Run.1.transaction.map (·.status) = some .failed ∧
    paymentStatusById s2Run.1.payments 1 = some .voided ∧
    paymentStatusById s2Run.1.payments 2 = some .failed ∧
    paymentStatusById s2Run.1.payments 3 = some .pending ∧
    s2Run.1.cancelCalls = ["pi_1"] ∧
    "pi_3" ∉ s2Run.1.cancelCalls :=
  ⟨rfl, rfl, rfl, rfl, rfl, rfl, by decide⟩

/-! ## Claim C5 -/

/-- Initial state for the C5 counterexample: the transaction is already
`processing` (a first `complete()` is in flight). -/
def c5State : CheckoutState :=
  { transaction := some { totalAmount := 10000, status := .processing },
    payments :=
      [{ id := 1, intentId := "pi_a", amount := 6000, status := .pending },
       { id := 2, intentId := "pi_b", amount := 4000, status := .pending }] }

/-- The submitted payment list of the second `complete()` call. -/
def c5Reqs : List PayReq :=
  [{ paymentId := 1, intentId := "pi_a", methodId := "pm_a", amount := 6000 },
   { paymentId := 2, intentId := "pi_b", methodId := "pm_b", amount := 4000 }]

/-- The second `complete()` run against the `processing` transaction. -/
def c5Run : CheckoutState × Except String Unit :=
  completeCheckout c5State c5Reqs 10000 (fun _ => .confirmedOk) (fun _ => true)

/-- Claim C5, counterexample. A `complete()` call on a transaction whose status
is already `processing` is **not** rejected: neither `completeCheckout` nor
the `/complete-checkout` route ever reads `transaction.status`.  The call
proceeds to issue provider confirm and capture calls and completes. -/
theorem C5_counterexample :
    c5State.transaction.map (·.status) = some .processing ∧
    c5Run.2 = .ok () ∧
    c5Run.1.confirmCalls = ["pi_a", "pi_b"] ∧
    c5Run.1.captureCalls = ["pi_a", "pi_b"] ∧
    c5Run.1.transaction.map (·.status) = some .completed :=
  ⟨rfl, rfl, rfl, rfl, rfl⟩

/-- Claim C5, amended. `completeCheckout` contains no status guard at all: when
the amounts validate and a transaction row exists, the run — its provider
calls, database writes and result — is identical whatever the transaction's
current status (`pending`, `processing`, or any other).  Only amount
validation and transaction existence can reject a call. -/
theorem C5_no_status_guard (tx : TxRow) (ps : List PaymentRow)
    (cc cap canc : List String) (reqs : List PayReq) (total : Int)
    (auth : String → AuthR) (capture : String → Bool) (s s' : TStatus)
    (hv : validatePaymentAmountsValid total (reqs.map (·.amount)) = true) :
    completeCheckout
        { transaction := some { tx with status := s }, payments := ps,
          confirmCalls := cc, captureCalls := cap, cancelCalls := canc }
        reqs total auth capture =
      completeCheckout
        { transaction := some { tx with status := s' }, payments := ps,
          confirmCalls := cc, captureCalls := cap, cancelCalls := canc }
        reqs total auth capture := by
  cases tx
  unfold completeCheckout
  simp only [hv, Bool.not_true, Bool.false_eq_true, if_false, setTxStatus,
    Option.map]

/-- Witness for the amended C5: a pending and a processing transaction give
the same run on scenario-sized concrete inputs. -/
theorem C5_witness :
    validatePaymentAmountsValid 10000 (c5Reqs.map (·.amount)) = true ∧
    completeCheckout
        { transaction := some { totalAmount := 10000, status := .pending },
          payments := [] }
        c5Reqs 10000 (fun _ => .confirmedOk) (fun _ => true) =
      completeCheckout
        { transaction := some { totalAmount := 10000, status := .processing },
          payments := [] }
        c5Reqs 10000 (fun _ => .confirmedOk) (fun _ => true) :=
  ⟨by decide,
   C5_no_status_guard { totalAmount := 10000, status := .pending } [] [] [] []
     c5Reqs 10000 (fun _ => .confirmedOk) (fun _ => true) .pending .processing
     (by decide)⟩

/-! ## Webhook reconciler (`src/server/routes` Stripe webhook handlers) -/

/-- `handlePaymentIntentSucceeded(paymentIntent)`: if a local payment exists
for the intent and is not already `captured`, set it `captured`.  No other
guard. -/
def handlePaymentIntentSucceeded (ps : List PaymentRow) (intentId : String) :
    List PaymentRow :=
  match getPaymentByIntent ps intentId with
  | some payment =>
      if payment.status ≠ .captured then
        updatePaymentStatus ps payment.id .captured none none
      else ps
  | none => ps

/-- `handlePaymentIntentFailed(paymentIntent)`: if a local payment exists for
the intent, set it `failed` with the provider's error code/message —
unconditionally, whatever its current status. -/
def handlePaymentIntentFailed (ps : List PaymentRow) (intentId : String)
    (code msg : Option String) : List PaymentRow :=
  match getPaymentByIntent ps intentId with
  | some payment => updatePaymentStatus ps payment.id .failed code msg
  | none => ps

/-- The transition relation claimed by §3-invariant 5: `pending → authorized`,
`authorized → captured`, `pending → failed`, `authorized → voided`,
`captured → refunded` are the only allowed moves. -/
def claimAllowedMove : PStatus → PStatus → Bool
  | .pending, .authorized => true
  | .authorized, .captured => true
  | .pending, .failed => true
  | .authorized, .voided => true
  | .captured, .refunded => true
  | _, _ => false

/-- Status of the first payment row carrying a given intent id. -/
def paymentStatusByIntent (ps : List PaymentRow) (intentId : String) :
    Option PStatus :=
  (getPaymentByIntent ps intentId).map (·.status)

/-! ## Claim C2 -/

/-- Claim C2, counterexample. An actual orchestrator run followed by a
reconciler event leaves the allowed transition system: in scenario S2 the
`complete()` run voids payment 1 (terminal state `voided`); a subsequent
`payment_intent.succeeded` webhook for `pi_1` — which the provider does send
when an intent confirmed as `succeeded` was compensated — moves it back to
`captured`, a move the claim forbids.  (`handlePaymentIntentFailed` likewise
moves even a `captured` payment to `failed`.) -/
theorem C2_counterexample :
    paymentStatusByIntent s2Run.1.payments "pi_1" = some .voided ∧
    paymentStatusByIntent
        (handlePaymentIntentSucceeded s2Run.1.payments "pi_1") "pi_1" =
      some .captured ∧
    claimAllowedMove .voided .captured = false ∧
    paymentStatusByIntent
        (handlePaymentIntentFailed
          (handlePaymentIntentSucceeded s2Run.1.payments "pi_1") "pi_1"
          (some "card_declined") (some "declined")) "pi_1" =
      some .failed ∧
    claimAllowedMove .captured .failed = false :=
  ⟨rfl, rfl, rfl, rfl, rfl⟩

private theorem find_after_update (ps : List PaymentRow) (row : PaymentRow)
    (intentId : String) (s : PStatus) (code msg : Option String)
    (hfind : getPaymentByIntent ps intentId = some row) :
    getPaymentByIntent (updatePaymentStatus ps row.id s code msg) intentId =
      some (applyStatusUpdate row s code msg) := by
  unfold getPaymentByIntent at *
  unfold updatePaymentStatus
  induction ps with
  | nil => simp at hfind
  | cons h tl ih =>
      by_cases hh : h.intentId = intentId
      · have hrow : h = row := by
          rw [List.find?_cons_of_pos _ (by simpa using hh)] at hfind
          exact Option.some.inj hfind
        subst hrow
        simp only [List.map_cons, if_pos rfl]
        apply List.find?_cons_of_pos
        simpa [applyStatusUpdate] using hh
      · rw [List.find?_cons_of_neg _ (by simpa using hh)] at hfind
        simp only [List.map_cons]
        rw [List.find?_cons_of_neg, ih hfind]
        by_cases hid : h.id = row.id
        · simpa [hid, applyStatusUpdate] using hh
        · simpa [hid] using hh

/-- Claim C2, amended. The reconciler enforces no transition discipline: for a
payment that exists locally, `payment_intent.succeeded` always leaves it
`captured` — whatever it was before, including the terminal states `voided`,
`failed`, `refunded` (only an already-`captured` payment is left untouched,
which coincides with setting it `captured`) — and
`payment_intent.payment_failed` always leaves it `failed`, including from
`captured`.  So the §3-invariant-5 discipline does not hold across reconciler
events; it is not enforced anywhere. -/
theorem C2_webhook_handlers_force_status (ps : List PaymentRow)
    (intentId : String) (row : PaymentRow) (code msg : Option String)
    (hfind : getPaymentByIntent ps intentId = some row) :
    paymentStatusByIntent (handlePaymentIntentSucceeded ps intentId) intentId =
      some .captured ∧
    paymentStatusByIntent (handlePaymentIntentFailed ps intentId code msg)
        intentId = some .failed := by
  constructor
  · unfold handlePaymentIntentSucceeded
    rw [hfind]
    dsimp only
    by_cases hs : row.status = PStatus.captured
    · rw [if_neg (by simp [hs])]
      unfold paymentStatusByIntent
      rw [hfind]
      simp [hs]
    · rw [if_pos (by simp [hs])]
      unfold paymentStatusByIntent
      rw [find_after_update ps row intentId _ none none hfind]
      rfl
  · unfold handlePaymentIntentFailed
    rw [hfind]
    dsimp only
    unfold paymentStatusByIntent
    rw [find_after_update ps row intentId _ code msg hfind]
    rfl

/-- Witness for the amended C2 on a one-row table holding a voided payment. -/
theorem C2_witness :
    getPaymentByIntent
        [{ id := 7, intentId := "pi_x", amount := 500, status := PStatus.voided }]
        "pi_x" =
      some { id := 7, intentId := "pi_x", amount := 500, status := PStatus.voided } ∧
    paymentStatusByIntent
        (handlePaymentIntentSucceeded
          [{ id := 7, intentId := "pi_x", amount := 500, status := PStatus.voided }]
          "pi_x") "pi_x" = some .captured ∧
    paymentStatusByIntent
        (handlePaymentIntentFailed
          [{ id := 7, intentId := "pi_x", amount := 500, status := PStatus.voided }]
          "pi_x" none none) "pi_x" = some .failed :=
  ⟨by decide,
   C2_webhook_handlers_force_status
     [{ id := 7, intentId := "pi_x", amount := 500, status := PStatus.voided }]
     "pi_x"
     { id := 7, intentId := "pi_x", amount := 500, status := PStatus.voided }
     none none (by decide)⟩

/-! ## Refund service (`processRefund`, `src/server/services` refund part)

The Stripe refund call is an oracle keyed by the payment intent id. -/

/-- Refund row status domain. -/
inductive RStatus
  | pending
  | succeeded
  | failed
deriving DecidableEq, Repr

/-- A row of the `refunds` table (the columns `processRefund` reads/writes). -/
structure RefundRow where
  paymentId : Nat
  stripeRefundId : String
  amount : Int
  status : RStatus
deriving DecidableEq, Repr

/-- One entry of `calculateProportionalRefunds`' output. -/
structure RefundSplit where
  paymentId : Nat
  stripePaymentIntentId : String
  originalAmount : Int
  refundAmount : Int
deriving DecidableEq, Repr

/-- One entry of the per-payment `refundResults` array. -/
structure RefundResultEntry where
  paymentId : Nat
  amount : Option Int
  status : RStatus
deriving DecidableEq, Repr

/-- Outcome of a `stripe.refunds.create` call. -/
inductive ProvRefundR
  | ok (refundId : String) (succeeded : Bool)
  | err (msg : String)
deriving DecidableEq, Repr

/-- The return payload of `processRefund`. -/
structure RefundOutcome where
  success : Bool
  refunds : List RefundResultEntry
  totalRefunded : Int
  transactionStatus : TStatus
deriving DecidableEq, Repr

/-- The state `processRefund` reads and writes. -/
structure RefundState where
  transaction : Option TxRow
  payments : List PaymentRow
  refunds : List RefundRow
deriving DecidableEq, Repr

/-- `calculateProportionalRefunds(payments, refundAmount)`: distributes the
refund over the amounts of **all** the given payments (no status filter) and
pairs each payment with its split. -/
def calculateProportionalRefunds (payments : List PaymentRow)
    (refundAmount : Int) : List RefundSplit :=
  let refundAmounts := distributeProportionally refundAmount (payments.map (·.amount))
  List.zipWith
    (fun (p : PaymentRow) (a : Int) =>
      { paymentId := p.id, stripePaymentIntentId := p.intentId,
        originalAmount := p.amount, refundAmount := a })
    payments refundAmounts

/-- Sum of the already-succeeded refunds
(`existingRefunds.filter(status=succeeded).reduce(+ amount)`). -/
def alreadyRefunded (st : RefundState) : Int :=
  ((st.refunds.filter fun r => r.status = RStatus.succeeded).map (·.amount)).sum

/-- The per-split loop of `processRefund` (lines 447–517): look the payment up
by intent; a missing payment or a provider error yields a `failed` result
entry; a non-`captured` payment is skipped silently (`continue`); otherwise a
refund row is persisted with the provider's reported status and a result
entry pushed. -/
def refundLoop (st : RefundState) (splits : List RefundSplit)
    (provider : String → ProvRefundR) : RefundState × List RefundResultEntry :=
  match splits with
  | [] => (st, [])
  | split :: rest =>
    match getPaymentByIntent st.payments split.stripePaymentIntentId with
    | none =>
        let (st', res) := refundLoop st rest provider
        (st', { paymentId := split.paymentId, amount := none,
                status := RStatus.failed } :: res)
    | some payment =>
      if payment.status ≠ PStatus.captured then
        refundLoop st rest provider
      else
        match provider split.stripePaymentIntentId with
        | .err _ =>
            let (st', res) := refundLoop st rest provider
            (st', { paymentId := split.paymentId, amount := none,
                    status := RStatus.failed } :: res)
        | .ok refundId succeeded =>
            let row : RefundRow :=
              { paymentId := payment.id, stripeRefundId := refundId,
                amount := split.refundAmount,
                status := if succeeded then RStatus.succeeded else RStatus.pending }
            let st1 := { st with refunds := st.refunds ++ [row] }
            let (st', res) := refundLoop st1 rest provider
            (st', { paymentId := payment.id, amount := some split.refundAmount,
                    status := if succeeded then RStatus.succeeded else RStatus.pending }
                  :: res)

/-- `processRefund({transactionId, refundAmount, …})`, lines 395–536:
status guard (`completed` only), payments-exist check, remaining-refundable
check, proportional split over **all** payments, zero-splits dropped, the
per-split loop, then the transaction-status update computed from
`totalRefunded + refundAmount` alone. -/
def processRefund (st : RefundState) (refundAmount : Int)
    (provider : String → ProvRefundR) :
    RefundState × Except String RefundOutcome :=
  match st.transaction with
  | none => (st, .error "Transaction not found")
  | some tx =>
    if tx.status ≠ TStatus.completed then
      (st, .error "Can only refund completed transactions")
    else if st.payments.isEmpty then
      (st, .error "No payments found for transaction")
    else
      let totalRefunded := alreadyRefunded st
      let remainingRefundable := tx.totalAmount - totalRefunded
      if refundAmount > remainingRefundable then
        (st, .error "Refund amount exceeds remaining refundable amount")
      else
        let refundSplits := calculateProportionalRefunds st.payments refundAmount
        let nonZeroRefunds := refundSplits.filter fun r => r.refundAmount > 0
        if nonZeroRefunds.isEmpty then
          (st, .error "Refund amount is too small to distribute")
        else
          let (st1, results) := refundLoop st nonZeroRefunds provider
          let newTotalRefunded := totalRefunded + refundAmount
          let st2 :=
            if newTotalRefunded ≥ tx.totalAmount then
              { st1 with transaction := setTxStatus st1.transaction .refunded none }
            else if newTotalRefunded > 0 then
              { st1 with transaction := setTxStatus st1.transaction .partially_refunded none }
            else st1
          (st2,
           .ok { success := results.all fun r => r.status ≠ RStatus.failed
                 refunds := results
                 totalRefunded := newTotalRefunded
                 transactionStatus :=
                   if newTotalRefunded ≥ tx.totalAmount then TStatus.refunded
                   else TStatus.partially_refunded })

/-! ## Claim C7 -/

/-- State for C7: a transaction that was partially refunded (2000 of 10000
already refunded), with both payments still `captured`. -/
def c7State : RefundState :=
  { transaction := some { totalAmount := 10000, status := .partially_refunded },
    payments :=
      [{ id := 1, intentId := "pi_1", amount := 5000, status := .captured },
       { id := 2, intentId := "pi_2", amount := 5000, status := .captured }],
    refunds :=
      [{ paymentId := 1, stripeRefundId := "re_0", amount := 2000,
         status := .succeeded }] }

/-- Claim C7 (code bug). `processRefund` rejects every transaction whose status
is not exactly `completed` — including `partially_refunded` — so a further
refund on a partially refunded transaction is impossible, although 8000 of
the 10000 cents are still refundable and the amount check would pass.  The
spec (§4.6 refund step 1: "Reject unless transaction is `completed` or
`partially_refunded`") and the function's own remaining-refundable
computation (which is reachable only if repeated refunds are possible)
show the intent; the guard makes that computation dead code. -/
theorem C7_partially_refunded_rejected :
    (processRefund c7State 1000 (fun _ => ProvRefundR.ok "re_1" true)).2 =
      .error "Can only refund completed transactions" ∧
    c7State.transaction.map (·.status) = some .partially_refunded ∧
    alreadyRefunded c7State = 2000 ∧
    (1000 : Int) ≤ 10000 - alreadyRefunded c7State :=
  ⟨rfl, rfl, rfl, by decide⟩

/-! ## Claim C6: counterexample -/

/-- State for the C6 counterexample: a completed transaction of 10000 with
one `captured` payment of 5000 and one payment of 5000 whose status is the
terminal `refunded` (reached, e.g., through the reconciler of C2). -/
def c6State : RefundState :=
  { transaction := some { totalAmount := 10000, status := .completed },
    payments :=
      [{ id := 1, intentId := "pi_1", amount := 5000, status := .captured },
       { id := 2, intentId := "pi_2", amount := 5000, status := .refunded }],
    refunds := [] }

/-- A refund of 1000 on `c6State` with an always-succeeding provider. -/
def c6Run : RefundState × Except String RefundOutcome :=
  processRefund c6State 1000 (fun _ => ProvRefundR.ok "re_9" true)

/-- Claim C6, counterexample. The refund split is computed over the amounts of
**all** payments — `[5000, 5000]`, giving `[500, 500]` — not over the
captured ones only (`[5000]`, which would give `[1000]`).  The non-captured
payment's split of 500 is then silently skipped in the loop, so the created
refunds sum to 500, not to the requested 1000. -/
theorem C6_counterexample :
    (calculateProportionalRefunds c6State.payments 1000).map (·.refundAmount) =
      [500, 500] ∧
    distributeProportionally 1000
        ((c6State.payments.filter fun p => p.status = PStatus.captured).map
          (·.amount)) = [1000] ∧
    (c6Run.1.refunds.map (·.amount)).sum = 500 ∧
    ((500 : Int) ≠ 1000) := by
  refine ⟨rfl, rfl, rfl, by decide⟩

/-! ### Supporting lemmas for C10 and the amended C6 -/

private theorem exists_pos_of_sum_pos (l : List Int) (h : 0 < l.sum) :
    ∃ a ∈ l, 0 < a := by
  induction l with
  | nil => simp at h
  | cons a tl ih =>
      by_cases ha : 0 < a
      · exact ⟨a, by simp, ha⟩
      · have : 0 < tl.sum := by
          simp only [List.sum_cons] at h
          omega
        obtain ⟨b, hb, hbpos⟩ := ih this
        exact ⟨b, by simp [hb], hbpos⟩

private theorem filter_pos_sum_of_nonneg (l : List Int)
    (h : ∀ a ∈ l, 0 ≤ a) : (l.filter fun a => a > 0).sum = l.sum := by
  induction l with
  | nil => rfl
  | cons a tl ih =>
      have ha := h a (by simp)
      have htl := ih fun b hb => h b (by simp [hb])
      by_cases hpos : a > 0
      · simp [List.filter_cons, hpos, htl]
      · have : a = 0 := by omega
        simp [List.filter_cons, hpos, htl, this]

private theorem map_refundAmount_zipWith (payments : List PaymentRow)
    (dist : List Int) (h : payments.length = dist.length) :
    (List.zipWith
        (fun (p : PaymentRow) (a : Int) =>
          ({ paymentId := p.id, stripePaymentIntentId := p.intentId,
             originalAmount := p.amount, refundAmount := a } : RefundSplit))
        payments dist).map (·.refundAmount) = dist := by
  induction payments generalizing dist with
  | nil =>
      cases dist with
      | nil => rfl
      | cons b tl => simp at h
  | cons p ptl ih =>
      cases dist with
      | nil => simp at h
      | cons b tl =>
          simp only [List.zipWith_cons_cons, List.map_cons]
          rw [ih tl (by simpa using h)]

private theorem zipWith_exists_payment (payments : List PaymentRow)
    (dist : List Int) (s : RefundSplit)
    (hs : s ∈ List.zipWith
        (fun (p : PaymentRow) (a : Int) =>
          ({ paymentId := p.id, stripePaymentIntentId := p.intentId,
             originalAmount := p.amount, refundAmount := a } : RefundSplit))
        payments dist) :
    ∃ r ∈ payments, r.intentId = s.stripePaymentIntentId := by
  induction payments generalizing dist with
  | nil => simp at hs
  | cons p ptl ih =>
      cases dist with
      | nil => simp at hs
      | cons b tl =>
          simp only [List.zipWith_cons_cons, List.mem_cons] at hs
          cases hs with
          | inl h => exact ⟨p, by simp, by rw [h]⟩
          | inr h =>
              obtain ⟨r, hr, hri⟩ := ih tl h
              exact ⟨r, by simp [hr], hri⟩

private theorem map_filter_refundAmount (l : List RefundSplit) :
    ((l.filter fun r => r.refundAmount > 0).map (·.refundAmount)) =
      (l.map (·.refundAmount)).filter (fun a => a > 0) := by
  induction l with
  | nil => rfl
  | cons s tl ih =>
      by_cases hs : s.refundAmount > 0
      · simp [List.filter_cons, hs, ih]
      · simp [List.filter_cons, hs, ih]

theorem refundLoop_preserves (splits : List RefundSplit) :
    ∀ (st : RefundState) (provider : String → ProvRefundR),
      (refundLoop st splits provider).1.transaction = st.transaction ∧
      (refundLoop st splits provider).1.payments = st.payments := by
  induction splits with
  | nil => intro st provider; exact ⟨rfl, rfl⟩
  | cons split rest ih =>
      intro st provider
      unfold refundLoop
      cases hf : getPaymentByIntent st.payments split.stripePaymentIntentId with
      | none =>
          dsimp only
          rcases hrec : refundLoop st rest provider with ⟨st', res⟩
          have := ih st provider
          rw [hrec] at this
          simpa [hrec] using this
      | some payment =>
          dsimp only
          by_cases hcap : payment.status ≠ PStatus.captured
          · rw [if_pos hcap]
            exact ih st provider
          · rw [if_neg hcap]
            cases hp : provider split.stripePaymentIntentId with
            | err m =>
                dsimp only
                rcases hrec : refundLoop st rest provider with ⟨st', res⟩
                have := ih st provider
                rw [hrec] at this
                simpa [hrec] using this
            | ok rid succ =>
                dsimp only
                rcases hrec : refundLoop
                    { st with refunds := st.refunds ++
                        [{ paymentId := payment.id, stripeRefundId := rid,
                           amount := split.refundAmount,
                           status := if succ then RStatus.succeeded else RStatus.pending }] }
                    rest provider with ⟨st', res⟩
                have := ih
                  { st with refunds := st.refunds ++
                      [{ paymentId := payment.id, stripeRefundId := rid,
                         amount := split.refundAmount,
                         status := if succ then RStatus.succeeded else RStatus.pending }] }
                  provider
                rw [hrec] at this
                simpa [hrec] using this

theorem refundLoop_amounts_all_captured (splits : List RefundSplit) :
    ∀ (st : RefundState) (provider : String → ProvRefundR),
      (∀ r ∈ st.payments, r.status = PStatus.captured) →
      (∀ s ∈ splits, ∃ r ∈ st.payments, r.intentId = s.stripePaymentIntentId) →
      (∀ i, ∃ rid b, provider i = ProvRefundR.ok rid b) →
      ((refundLoop st splits provider).1.refunds.map (·.amount)) =
        (st.refunds.map (·.amount)) ++ splits.map (·.refundAmount) := by
  induction splits with
  | nil => intro st provider _ _ _; simp [refundLoop]
  | cons split rest ih =>
      intro st provider hcap hmem hprov
      unfold refundLoop
      have hex : ∃ r ∈ st.payments, r.intentId = split.stripePaymentIntentId :=
        hmem split (by simp)
      have hfindSome : (getPaymentByIntent st.payments
          split.stripePaymentIntentId).isSome := by
        unfold getPaymentByIntent
        rw [List.find?_isSome]
        obtain ⟨r, hr, hri⟩ := hex
        exact ⟨r, hr, by simp [hri]⟩
      cases hf : getPaymentByIntent st.payments split.stripePaymentIntentId with
      | none => rw [hf] at hfindSome; simp at hfindSome
      | some payment =>
          dsimp only
          have hpmem : payment ∈ st.payments :=
            List.mem_of_find?_eq_some hf
          have hpcap : payment.status = PStatus.captured := hcap payment hpmem
          rw [if_neg (by simp [hpcap])]
          obtain ⟨rid, succ, hp⟩ := hprov split.stripePaymentIntentId
          rw [hp]
          dsimp only
          rcases hrec : refundLoop
              { st with refunds := st.refunds ++
                  [{ paymentId := payment.id, stripeRefundId := rid,
                     amount := split.refundAmount,
                     status := if succ then RStatus.succeeded else RStatus.pending }] }
              rest provider with ⟨st', res⟩
          have hihd := ih
            { st with refunds := st.refunds ++
                [{ paymentId := payment.id, stripeRefundId := rid,
                   amount := split.refundAmount,
                   status := if succ then RStatus.succeeded else RStatus.pending }] }
            provider hcap
            (fun s hs => hmem s (by simp [hs]))
            hprov
          rw [hrec] at hihd
          simp only [hrec]
          simp only [List.map_append] at hihd
          simp [hihd]

/-- The split amounts of `calculateProportionalRefunds` are exactly
`distributeProportionally` over the amounts of **all** given payments. -/
theorem calcProp_map_refundAmount (payments : List PaymentRow)
    (refundAmount : Int) :
    (calculateProportionalRefunds payments refundAmount).map (·.refundAmount) =
      distributeProportionally refundAmount (payments.map (·.amount)) := by
  unfold calculateProportionalRefunds
  dsimp only
  apply map_refundAmount_zipWith
  rw [distributeProportionally_length, List.length_map]

/-- If the payments list is non-empty with positive total amount and the
refund amount is positive, the filtered non-zero split list is non-empty. -/
theorem nonZero_splits_ne_nil (payments : List PaymentRow) (refundAmount : Int)
    (hne : payments ≠ []) (hpos : 1 ≤ refundAmount)
    (hamts : 0 < (payments.map (·.amount)).sum) :
    ((calculateProportionalRefunds payments refundAmount).filter
      fun r => r.refundAmount > 0) ≠ [] := by
  intro hcon
  have hmapne : payments.map (·.amount) ≠ (List.nil (α := Int)) := by
    simp [hne]
  have hsum := distributeProportionally_sum refundAmount
    (payments.map (·.amount)) hmapne hamts.ne'
  obtain ⟨a, ha, hapos⟩ := exists_pos_of_sum_pos
    (distributeProportionally refundAmount (payments.map (·.amount)))
    (by rw [hsum]; omega)
  rw [← calcProp_map_refundAmount] at ha
  obtain ⟨s, hsmem, hsa⟩ := List.mem_map.mp ha
  have hmemf : s ∈ (calculateProportionalRefunds payments refundAmount).filter
      (fun r => r.refundAmount > 0) := by
    rw [List.mem_filter]
    refine ⟨hsmem, ?_⟩
    simp only [decide_eq_true_eq]
    omega
  rw [hcon] at hmemf
  simp at hmemf

/-- The part of `processRefund` after all guards have passed. -/
def processRefundCore (st : RefundState) (tx : TxRow) (refundAmount : Int)
    (provider : String → ProvRefundR) :
    RefundState × Except String RefundOutcome :=
  let totalRefunded := alreadyRefunded st
  let nonZeroRefunds := (calculateProportionalRefunds st.payments refundAmount).filter
    fun r => r.refundAmount > 0
  let p := refundLoop st nonZeroRefunds provider
  let newTotalRefunded := totalRefunded + refundAmount
  let st2 :=
    if newTotalRefunded ≥ tx.totalAmount then
      { p.1 with transaction := setTxStatus p.1.transaction .refunded none }
    else if newTotalRefunded > 0 then
      { p.1 with transaction := setTxStatus p.1.transaction .partially_refunded none }
    else p.1
  (st2,
   .ok { success := p.2.all fun r => r.status ≠ RStatus.failed
         refunds := p.2
         totalRefunded := newTotalRefunded
         transactionStatus :=
           if newTotalRefunded ≥ tx.totalAmount then TStatus.refunded
           else TStatus.partially_refunded })

/-- When every guard of `processRefund` passes, the run equals the post-guard
core. -/
theorem processRefund_eq_core (st : RefundState) (tx : TxRow)
    (refundAmount : Int) (provider : String → ProvRefundR)
    (htx : st.transaction = some tx)
    (hst : tx.status = TStatus.completed)
    (hne : st.payments ≠ [])
    (hrem : refundAmount ≤ tx.totalAmount - alreadyRefunded st)
    (hnz : ((calculateProportionalRefunds st.payments refundAmount).filter
      fun r => r.refundAmount > 0) ≠ []) :
    processRefund st refundAmount provider =
      processRefundCore st tx refundAmount provider := by
  unfold processRefund processRefundCore
  rw [htx]
  dsimp only
  rw [if_neg (by simp [hst])]
  rw [if_neg (by simp [List.isEmpty_iff, hne])]
  rw [if_neg (by omega)]
  rw [if_neg (by simp [List.isEmpty_iff, hnz])]

/-! ## Claim C10 -/

/-- Claim C10. For every refund request that passes the status and
remaining-refundable checks (with a positive refund amount on a non-empty
payment list of positive total, and non-negative already-succeeded refunds),
`processRefund` returns `totalRefunded = alreadyRefunded + refundAmount` and
sets — in the returned payload and on the transaction row — status `refunded`
when that sum reaches `total_amount`, else `partially_refunded`.  The
`provider` oracle is universally quantified, so the same totals and the same
status transition occur even when any or all per-payment provider refund
calls fail; only the returned `success` flag can differ. -/
theorem C10_refund_totals_from_request_alone (st : RefundState) (tx : TxRow)
    (refundAmount : Int) (provider : String → ProvRefundR)
    (htx : st.transaction = some tx)
    (hst : tx.status = TStatus.completed)
    (hne : st.payments ≠ [])
    (hpos : 1 ≤ refundAmount)
    (hrem : refundAmount ≤ tx.totalAmount - alreadyRefunded st)
    (har : 0 ≤ alreadyRefunded st)
    (hamts : 0 < (st.payments.map (·.amount)).sum) :
    ((processRefund st refundAmount provider).2.toOption.map (·.totalRefunded) =
      some (alreadyRefunded st + refundAmount)) ∧
    ((processRefund st refundAmount provider).2.toOption.map (·.transactionStatus) =
      some (if alreadyRefunded st + refundAmount ≥ tx.totalAmount
            then TStatus.refunded else TStatus.partially_refunded)) ∧
    ((processRefund st refundAmount provider).1.transaction.map (·.status) =
      some (if alreadyRefunded st + refundAmount ≥ tx.totalAmount
            then TStatus.refunded else TStatus.partially_refunded)) := by
  rw [processRefund_eq_core st tx refundAmount provider htx hst hne hrem
    (nonZero_splits_ne_nil st.payments refundAmount hne hpos hamts)]
  unfold processRefundCore
  dsimp only
  have hpres := (refundLoop_preserves
    ((calculateProportionalRefunds st.payments refundAmount).filter
      fun r => r.refundAmount > 0) st provider).1
  by_cases hge : alreadyRefunded st + refundAmount ≥ tx.totalAmount
  · rw [if_pos hge]
    refine ⟨rfl, rfl, ?_⟩
    dsimp only
    rw [hpres, htx]
    simp [setTxStatus, hge]
  · rw [if_neg hge]
    have hgt : alreadyRefunded st + refundAmount > 0 := by omega
    rw [if_pos hgt]
    refine ⟨rfl, rfl, ?_⟩
    dsimp only
    rw [hpres, htx]
    simp [setTxStatus, hge]

/-- State for the C10 witness: completed transaction of 10000, two captured
payments, no prior refunds. -/
def c10State : RefundState :=
  { transaction := some { totalAmount := 10000, status := .completed },
    payments :=
      [{ id := 1, intentId := "pi_1", amount := 5000, status := .captured },
       { id := 2, intentId := "pi_2", amount := 5000, status := .captured }],
    refunds := [] }

/-- Witness for C10 at a provider that fails every refund call: the returned
total and the status transition are unaffected. -/
theorem C10_witness :
    (1 : Int) ≤ 1000 ∧
    ((processRefund c10State 1000 (fun _ => ProvRefundR.err "network")).2.toOption.map
        (·.totalRefunded) = some (alreadyRefunded c10State + 1000)) ∧
    ((processRefund c10State 1000 (fun _ => ProvRefundR.err "network")).2.toOption.map
        (·.transactionStatus) =
      some (if alreadyRefunded c10State + 1000 ≥ (10000:Int)
            then TStatus.refunded else TStatus.partially_refunded)) ∧
    ((processRefund c10State 1000 (fun _ => ProvRefundR.err "network")).1.transaction.map
        (·.status) =
      some (if alreadyRefunded c10State + 1000 ≥ (10000:Int)
            then TStatus.refunded else TStatus.partially_refunded)) :=
  ⟨by decide,
   C10_refund_totals_from_request_alone c10State
     { totalAmount := 10000, status := .completed } 1000
     (fun _ => ProvRefundR.err "network") rfl rfl (by decide) (by decide)
     (by decide) (by decide) (by decide)⟩

/-! ## Claim C6: amended theorem -/

/-- Claim C6, amended. The per-payment refund split is computed by
`distributeProportionally` over the amounts of **all** the transaction's
payments (no status filter); non-zero splits landing on non-captured payments
are skipped at processing time with no refund created.  Consequently, in the
case where every payment is `captured` (every split is non-negative — cf. C4
— and every provider call succeeds), the created refund amounts sum exactly
to the requested refund amount; zero-amount entries are dropped and produce
no refund. -/
theorem C6_split_basis_and_sum_when_all_captured (st : RefundState)
    (tx : TxRow) (refundAmount : Int) (provider : String → ProvRefundR)
    (htx : st.transaction = some tx)
    (hst : tx.status = TStatus.completed)
    (hne : st.payments ≠ [])
    (hpos : 1 ≤ refundAmount)
    (hrem : refundAmount ≤ tx.totalAmount - alreadyRefunded st)
    (hamts : 0 < (st.payments.map (·.amount)).sum)
    (hcap : ∀ r ∈ st.payments, r.status = PStatus.captured)
    (hnonneg : ∀ a ∈ distributeProportionally refundAmount
      (st.payments.map (·.amount)), 0 ≤ a)
    (hprov : ∀ i, ∃ rid b, provider i = ProvRefundR.ok rid b) :
    (calculateProportionalRefunds st.payments refundAmount).map (·.refundAmount) =
      distributeProportionally refundAmount (st.payments.map (·.amount)) ∧
    ((processRefund st refundAmount provider).1.refunds.map (·.amount)).sum =
      (st.refunds.map (·.amount)).sum + refundAmount := by
  refine ⟨calcProp_map_refundAmount st.payments refundAmount, ?_⟩
  rw [processRefund_eq_core st tx refundAmount provider htx hst hne hrem
    (nonZero_splits_ne_nil st.payments refundAmount hne hpos hamts)]
  have hrefs : (processRefundCore st tx refundAmount provider).1.refunds =
      (refundLoop st
        ((calculateProportionalRefunds st.payments refundAmount).filter
          fun r => r.refundAmount > 0) provider).1.refunds := by
    unfold processRefundCore
    dsimp only
    split
    · rfl
    · split
      · rfl
      · rfl
  rw [hrefs]
  have hmem : ∀ s ∈ (calculateProportionalRefunds st.payments refundAmount).filter
      (fun r => r.refundAmount > 0),
      ∃ r ∈ st.payments, r.intentId = s.stripePaymentIntentId := by
    intro s hs
    have hs' := List.mem_of_mem_filter hs
    unfold calculateProportionalRefunds at hs'
    exact zipWith_exists_payment st.payments _ s hs'
  rw [refundLoop_amounts_all_captured _ st provider hcap hmem hprov]
  rw [List.sum_append, map_filter_refundAmount, calcProp_map_refundAmount]
  rw [filter_pos_sum_of_nonneg _ hnonneg]
  rw [distributeProportionally_sum refundAmount (st.payments.map (·.amount))
    (by simp [hne]) hamts.ne']

/-- State for the C6 witness: scenario S3 — captured payments of 8000 and
4000 on a completed transaction of 12000. -/
def c6wState : RefundState :=
  { transaction := some { totalAmount := 12000, status := .completed },
    payments :=
      [{ id := 1, intentId := "pi_1", amount := 8000, status := .captured },
       { id := 2, intentId := "pi_2", amount := 4000, status := .captured }],
    refunds := [] }

/-- Witness for the amended C6: refund of 3000 on scenario S3; splits
`[2000, 1000]` and the created refunds sum to 3000. -/
theorem C6_witness :
    (calculateProportionalRefunds c6wState.payments 3000).map (·.refundAmount) =
      distributeProportionally 3000 (c6wState.payments.map (·.amount)) ∧
    ((processRefund c6wState 3000
        (fun _ => ProvRefundR.ok "re_1" true)).1.refunds.map (·.amount)).sum =
      (c6wState.refunds.map (·.amount)).sum + 3000 :=
  C6_split_basis_and_sum_when_all_captured c6wState
    { totalAmount := 12000, status := .completed } 3000
    (fun _ => ProvRefundR.ok "re_1" true) rfl rfl (by decide) (by decide)
    (by decide) (by decide) (by decide) (by decide)
    (fun _ => ⟨"re_1", true, rfl⟩)

/-! ## Widget routes (`POST /api/widget/create-payment-intent` and the
in-process `widgetSessions` map) -/

/-- One entry of a widget session's pending payment list. -/
structure SessionPayment where
  paymentId : Nat
  paymentIntentId : String
  amount : Int
deriving DecidableEq, Repr

/-- A widget session record as stored in `widgetSessions` — note it carries
**no** creation or expiry timestamp. -/
structure WidgetSession where
  transactionId : Nat
  shopDomain : String := ""
  checkoutToken : String := ""
  payments : List SessionPayment
deriving DecidableEq, Repr

/-- The state read and written by the widget routes. -/
structure WidgetState where
  sessions : List (String × WidgetSession)
  transactions : List (Nat × TxRow)
  paymentRows : List PaymentRow
  nextPaymentId : Nat
  createIntentCalls : List Int := []
deriving DecidableEq, Repr

/-- Error codes of the widget route responses. -/
inductive WidgetErr
  | MISSING_PARAMS
  | INVALID_AMOUNT
  | SESSION_NOT_FOUND
  | TRANSACTION_NOT_FOUND
  | TOO_MANY_CARDS
deriving DecidableEq, Repr

/-- Remaining balance of a transaction relative to a session, as defined by
the claim: `total − Σ session.payments[_].amount`. -/
def remainingBalance (tx : TxRow) (session : WidgetSession) : Int :=
  tx.totalAmount - (session.payments.map (·.amount)).sum

/-- `POST /api/widget/create-payment-intent`, in order: missing-params check
(JS falsy, so `amount = 0` also counts as missing), `validateAmount` at the
default minimum of 100, session lookup, transaction lookup, and the
five-cards cap.  Then a provider authorization is created (`newIntentId` is
the provider oracle's response), a `pending` payment row persisted, and the
session extended.  There is **no** comparison of `amount` with the
transaction's remaining balance. -/
def createPaymentIntentRoute (st : WidgetState) (sessionId : String)
    (amount : Int) (newIntentId : String) :
    WidgetState × Except WidgetErr (String × Nat) :=
  if sessionId = "" ∨ amount = 0 then
    (st, .error .MISSING_PARAMS)
  else if !validateAmountValid amount 100 then
    (st, .error .INVALID_AMOUNT)
  else
    match st.sessions.lookup sessionId with
    | none => (st, .error .SESSION_NOT_FOUND)
    | some session =>
      match st.transactions.lookup session.transactionId with
      | none => (st, .error .TRANSACTION_NOT_FOUND)
      | some _ =>
        if session.payments.length ≥ 5 then
          (st, .error .TOO_MANY_CARDS)
        else
          let payment : PaymentRow :=
            { id := st.nextPaymentId, intentId := newIntentId,
              amount := amount, status := .pending }
          let session' := { session with payments := session.payments ++
              [{ paymentId := st.nextPaymentId, paymentIntentId := newIntentId,
                 amount := amount }] }
          ({ st with
              paymentRows := st.paymentRows ++ [payment]
              sessions := st.sessions.map fun e =>
                if e.1 = sessionId then (e.1, session') else e
              nextPaymentId := st.nextPaymentId + 1
              createIntentCalls := st.createIntentCalls ++ [amount] },
           .ok (newIntentId, st.nextPaymentId))

/-- Whether a route result is a success response. -/
def isOkB {ε α : Type} : Except ε α → Bool
  | .ok _ => true
  | .error _ => false

/-! ## Claim C8 -/

/-- State for the C8 counterexample: a fresh session on a transaction whose
`total_amount` is 0 (as `/init` creates it). -/
def c8State : WidgetState :=
  { sessions := [("sess_1", { transactionId := 1, payments := [] })],
    transactions := [(1, { totalAmount := 0, status := .pending })],
    paymentRows := [],
    nextPaymentId := 10 }

/-- Claim C8, counterexample. A request of 10000 cents against a remaining
balance of 0 is accepted: a provider authorization is created and a payment
row persisted — the route never computes the remaining balance. -/
theorem C8_counterexample :
    remainingBalance { totalAmount := 0, status := .pending }
        { transactionId := 1, payments := [] } = 0 ∧
    ((10000 : Int) > 0) ∧
    (createPaymentIntentRoute c8State "sess_1" 10000 "pi_new").2 =
      .ok ("pi_new", 10) ∧
    (createPaymentIntentRoute c8State "sess_1" 10000 "pi_new").1.paymentRows =
      [{ id := 10, intentId := "pi_new", amount := 10000, status := .pending }] ∧
    (createPaymentIntentRoute c8State "sess_1" 10000 "pi_new").1.createIntentCalls =
      [10000] :=
  ⟨rfl, by decide, rfl, rfl, rfl⟩

private theorem validateAmountValid_eq_true_iff (amount : Int) :
    validateAmountValid amount 100 = true ↔ 100 ≤ amount := by
  unfold validateAmountValid
  by_cases h : amount < 100
  · rw [if_pos h]
    constructor
    · intro hc; exact absurd hc (by simp)
    · intro hc; omega
  · rw [if_neg h, if_neg (by omega)]
    constructor
    · intro _; omega
    · intro _; rfl

/-- Claim C8, amended. The route accepts a request exactly when the parameters
are present (`sessionId` non-empty, `amount` non-zero), the amount is an
integer `≥ 100`, the session and its transaction exist, and the session has
fewer than 5 payments.  The transaction's remaining balance is never
consulted, so any amount exceeding it is accepted whenever these conditions
hold, and a provider authorization and a payment row are then created. -/
theorem C8_accept_iff_no_balance_check (st : WidgetState) (sessionId : String)
    (amount : Int) (newIntentId : String) :
    isOkB (createPaymentIntentRoute st sessionId amount newIntentId).2 = true ↔
      (sessionId ≠ "" ∧ 100 ≤ amount ∧
        ∃ session, st.sessions.lookup sessionId = some session ∧
          (∃ tx, st.transactions.lookup session.transactionId = some tx) ∧
          session.payments.length < 5) := by
  unfold createPaymentIntentRoute
  by_cases h1 : sessionId = "" ∨ amount = 0
  · rw [if_pos h1]
    constructor
    · intro hc; exact absurd hc (by simp [isOkB])
    · rintro ⟨hs, ha, -⟩
      rcases h1 with h | h
      · exact absurd h hs
      · omega
  · rw [if_neg h1]
    have hs : sessionId ≠ "" := fun hc => h1 (Or.inl hc)
    by_cases h2 : validateAmountValid amount 100 = true
    · rw [h2]
      simp only [Bool.not_true, Bool.false_eq_true, if_false]
      have ha : 100 ≤ amount := (validateAmountValid_eq_true_iff amount).mp h2
      cases hl : st.sessions.lookup sessionId with
      | none =>
          constructor
          · intro hc; exact absurd hc (by simp [isOkB, hl])
          · rintro ⟨-, -, session, hsess, -⟩
            exact absurd hsess (by simp)
      | some session =>
          cases ht : st.transactions.lookup session.transactionId with
          | none =>
              constructor
              · intro hc; exact absurd hc (by simp [isOkB, hl, ht])
              · rintro ⟨-, -, session', hsess, ⟨tx, htx⟩, -⟩
                obtain rfl : session = session' := by
                  simpa using hsess
                rw [ht] at htx
                exact absurd htx (by simp)
          | some tx =>
              by_cases h5 : session.payments.length ≥ 5
              · constructor
                · intro hc
                  exact absurd hc (by simp [isOkB, hl, ht, if_pos h5])
                · rintro ⟨-, -, session', hsess, -, hlen⟩
                  obtain rfl : session = session' := by
                    simpa using hsess
                  omega
              · constructor
                · intro _
                  exact ⟨hs, ha, session, rfl, ⟨tx, ht⟩, by omega⟩
                · intro _
                  simp [isOkB, ht, if_neg h5]
    · have h2f : validateAmountValid amount 100 = false :=
        Bool.eq_false_iff.mpr h2
      rw [h2f]
      simp only [Bool.not_false, if_true]
      constructor
      · intro hc; exact absurd hc (by simp [isOkB])
      · rintro ⟨-, ha, -⟩
        exact absurd ((validateAmountValid_eq_true_iff amount).mpr ha) h2

/-! ## Claim C9 -/

/-- The widget session read as the routes perform it: `widgetSessions.get(
sessionId)`.  The embedding takes the current time `nowMs` as a ghost
parameter to express the claim, but the code ignores it — the stored record
carries no creation or expiry timestamp and no TTL check exists. -/
def getWidgetSessionAt (sessions : List (String × WidgetSession))
    (sessionId : String) (nowMs : Int) : Option WidgetSession :=
  sessions.lookup sessionId

/-- A session created (at ghost time 0 ms) by `/init`: empty payment list. -/
def c9Session : WidgetSession := { transactionId := 1, payments := [] }

/-- Claim C9, counterexample. A lookup 31 minutes (1 860 000 ms) after the
session's creation at time 0 still returns the session — not
`SESSION_NOT_FOUND`: no expiry exists. -/
theorem C9_counterexample :
    getWidgetSessionAt [("session_1", c9Session)] "session_1" 1860000 =
      some c9Session ∧
    getWidgetSessionAt [("session_1", c9Session)] "session_1" 1860000 ≠ none ∧
    ((1860000 : Int) > 30 * 60 * 1000) :=
  ⟨rfl, by decide, by decide⟩

/-- Claim C9, amended. Widget sessions never expire: whatever the current time
— however long after creation — a lookup returns the stored entry unchanged
until the entry is explicitly deleted (checkout success) or the process
restarts.  `SESSION_NOT_FOUND` arises only for ids absent from the map. -/
theorem C9_sessions_never_expire (sessions : List (String × WidgetSession))
    (sessionId : String) (s : WidgetSession) (now now' : Int)
    (h : sessions.lookup sessionId = some s) :
    getWidgetSessionAt sessions sessionId now = some s ∧
    getWidgetSessionAt sessions sessionId now =
      getWidgetSessionAt sessions sessionId now' :=
  ⟨h, rfl⟩

/-- Witness for the amended C9 at 31 minutes versus creation time. -/
theorem C9_witness :
    ([("session_1", c9Session)].lookup "session_1" = some c9Session) ∧
    (getWidgetSessionAt [("session_1", c9Session)] "session_1" 1860000 =
        some c9Session ∧
      getWidgetSessionAt [("session_1", c9Session)] "session_1" 1860000 =
        getWidgetSessionAt [("session_1", c9Session)] "session_1" 0) :=
  ⟨rfl, C9_sessions_never_expire [("session_1", c9Session)] "session_1"
    c9Session 1860000 0 rfl⟩

end SplitPay
